import Mathlib

/-!
Shallow embedding of the multi-strategy peer-room connection manager
(`joinRoomWithFallback` and its helpers `waitForRelayOpen`, `connect`,
`watchSockets`, `handleDisconnect`, `onReconnect`, `leave`).

Time is modelled in discrete milliseconds.  A relay WebSocket is modelled by
the instant (if any) at which its `readyState` becomes OPEN; `readyState ===
WebSocket.OPEN` holds at instant `t` iff that instant is `≤ t`.  The
single-threaded event loop is modelled operationally: `waitFrom` walks the
instants in order, firing the `open` listeners' check at each instant and the
timer's check when the remaining time reaches zero, mirroring the promise
executor of `waitForRelayOpen` (source lines 25-61).
-/

namespace P2P

/-- A relay WebSocket: `id` identifies the socket object (for listener
bookkeeping), `openAt` is the instant its `readyState` becomes OPEN
(`none` = never opens). -/
structure WSocket where
  id : Nat
  openAt : Option Nat
deriving DecidableEq, Repr

/-- `list.some((ws) => ws.readyState === WebSocket.OPEN)` evaluated at
instant `t`: some socket has opened at or before `t`. -/
def anyOpenBy (list : List WSocket) (t : Nat) : Bool :=
  list.any (fun ws =>
    match ws.openAt with
    | some u => decide (u ≤ t)
    | none => false)

/-- Event-loop walk of the open-wait from instant `t` with `r` milliseconds
left before the `setTimeout` callback fires.  While time remains, the `open`
listeners resolve `(true, t)` as soon as some socket is OPEN at the current
instant; when the remaining time reaches zero the timer fires and resolves
`list.some(readyState === OPEN)` evaluated at that instant (source lines
46-52), so a socket that opened exactly then still counts. -/
def waitFrom (list : List WSocket) (t : Nat) : Nat → Bool × Nat
  | 0 => (anyOpenBy list t, t)
  | r + 1 => if anyOpenBy list t then (true, t) else waitFrom list (t + 1) r

/-- The socket list: `sockets ? Object.values(sockets) : []`
(source line 29). `none` models the `undefined` map from a strategy with no
`getRelaySockets`. -/
def socketList (sockets : Option (List WSocket)) : List WSocket :=
  sockets.getD []

/-- `waitForRelayOpen(sockets, timeout)` (source lines 25-61): returns the
resolved boolean plus the instant at which the promise resolved.  An absent
or empty socket map returns `true` immediately (line 30). -/
def waitForRelayOpen (sockets : Option (List WSocket)) (timeout : Nat) :
    Bool × Nat :=
  let list := socketList sockets
  if list.isEmpty then (true, 0) else waitFrom list 0 timeout

/-- The earliest instant at which any socket of the list opens. -/
def firstOpenTime : List WSocket → Option Nat
  | [] => none
  | ws :: rest =>
    match ws.openAt, firstOpenTime rest with
    | some a, some b => some (min a b)
    | some a, none => some a
    | none, r => r

theorem anyOpenBy_nil (t : Nat) : anyOpenBy [] t = false := rfl

/-- `anyOpenBy` holds exactly from the earliest open instant onward. -/
theorem anyOpenBy_iff_firstOpenTime (list : List WSocket) (t : Nat) :
    anyOpenBy list t = true ↔
      ∃ m, firstOpenTime list = some m ∧ m ≤ t := by
  induction list with
  | nil => simp [anyOpenBy, firstOpenTime]
  | cons ws rest ih =>
    cases hws : ws.openAt with
    | none =>
      simp only [anyOpenBy, List.any_cons, firstOpenTime, hws, Bool.or_eq_true]
      rw [show (rest.any fun ws =>
            match ws.openAt with
            | some u => decide (u ≤ t)
            | none => false) = anyOpenBy rest t from rfl, ih]
      simp
    | some a =>
      simp only [anyOpenBy, List.any_cons, firstOpenTime, hws, Bool.or_eq_true]
      rw [show (rest.any fun ws =>
            match ws.openAt with
            | some u => decide (u ≤ t)
            | none => false) = anyOpenBy rest t from rfl, ih]
      cases hrest : firstOpenTime rest with
      | none => simp
      | some b => simp [min_le_iff]

/-- If the earliest open instant is `t`, the wait walks forward from any
instant `s ≤ t` and resolves `(true, t)` provided the timer would fire only
after `t`. -/
theorem waitFrom_reaches (list : List WSocket) (t : Nat)
    (hmin : firstOpenTime list = some t) :
    ∀ r s, s ≤ t → t < s + r → waitFrom list s r = (true, t) := by
  intro r
  induction r with
  | zero => intro s hs ht; omega
  | succ r ih =>
    intro s hs ht
    rcases Nat.eq_or_lt_of_le hs with rfl | hlt
    · have hopen : anyOpenBy list s = true :=
        (anyOpenBy_iff_firstOpenTime list s).2 ⟨s, hmin, le_refl s⟩
      simp [waitFrom, hopen]
    · have hclosed : anyOpenBy list s = false := by
        rw [Bool.eq_false_iff]
        intro h
        obtain ⟨m, hm, hmt⟩ := (anyOpenBy_iff_firstOpenTime list s).1 h
        rw [hmin] at hm
        injection hm with hm
        omega
      rw [waitFrom, hclosed]
      simp only [Bool.false_eq_true, if_false]
      exact ih (s + 1) hlt (by omega)

/-- If no socket opens strictly before the timer instant, the wait runs to
the timer, which resolves the OPEN check evaluated at that instant. -/
theorem waitFrom_times_out (list : List WSocket) :
    ∀ r s, (∀ u, s ≤ u → u < s + r → anyOpenBy list u = false) →
      waitFrom list s r = (anyOpenBy list (s + r), s + r) := by
  intro r
  induction r with
  | zero => intro s _; simp [waitFrom]
  | succ r ih =>
    intro s h
    have hs : anyOpenBy list s = false := h s (le_refl s) (by omega)
    rw [waitFrom, hs]
    simp only [Bool.false_eq_true, if_false]
    have hrec := ih (s + 1) (fun u hu hu2 => h u (by omega) (by omega))
    rw [hrec, show s + 1 + r = s + (r + 1) from by omega]

/-! ## Strategy registry and the connector (`connect`, source lines 80-101) -/

/-- What a strategy does when tried, covering the three failure vectors of the
source loop body (lines 85-98): `load()` rejecting, `joinRoom` throwing, or a
successful join whose relay sockets then determine health.  `joined` carries
the RoomHandle (as an id) and the result of `mod.getRelaySockets?.()`
(`none` when the module has no `getRelaySockets`). -/
inductive StratOutcome where
  | loadFail : StratOutcome
  | joinFail : StratOutcome
  | joined : Nat → Option (List WSocket) → StratOutcome
deriving DecidableEq, Repr

/-- A registry entry: `{ name, load }` with its runtime behaviour. -/
structure Strategy where
  name : String
  outcome : StratOutcome
deriving DecidableEq, Repr

/-- Observable actions of one `connect` scan, indexed by the registry
position they act on: `load i` = `strategies[i].load()` attempted, `join i`
= `mod.joinRoom(...)` attempted, `probe i` = `waitForRelayOpen` called,
`leaveRoom i r` = `await room.leave()` on the rejected candidate's room `r`
(line 95), `watch i` = `watchSockets` on the adopted module (line 92). -/
inductive Ev where
  | load : Nat → Ev
  | join : Nat → Ev
  | probe : Nat → Ev
  | leaveRoom : Nat → Nat → Ev
  | watch : Nat → Ev
deriving DecidableEq, Repr

/-- The ids of `Object.values(mod.getRelaySockets?.())` of a joined module
(empty when `getRelaySockets` is absent). -/
def socketIds (sockets : Option (List WSocket)) : List Nat :=
  (socketList sockets).map WSocket.id

/-- What a successful `connect` hands back and wires up: the adopted room,
the strategy name, and the adopted module's relay-socket ids (used by
`watchSockets` and later by `leave`). -/
structure ConnSuccess where
  room : Nat
  strategy : String
  sockets : List Nat
deriving DecidableEq, Repr

/-- The `for` loop of `connect` (source lines 83-99) over the remaining
strategies, `i` being the registry index of the list head.  Returns the
action trace and the result: a candidate whose load or join fails is caught
and skipped (lines 96-98); a joined candidate is health-probed with the
default 5000 ms timeout (line 88); if healthy it is adopted, watched and
returned (lines 89-93); if unhealthy its room is left (line 95) and the scan
advances; exhaustion throws (line 100). -/
def connectGo : List Strategy → Nat → List Ev × Except String ConnSuccess
  | [], _ => ([], Except.error "All connection strategies failed")
  | s :: rest, i =>
    match s.outcome with
    | StratOutcome.loadFail =>
      let next := connectGo rest (i + 1)
      (Ev.load i :: next.1, next.2)
    | StratOutcome.joinFail =>
      let next := connectGo rest (i + 1)
      (Ev.load i :: Ev.join i :: next.1, next.2)
    | StratOutcome.joined room sockets =>
      if (waitForRelayOpen sockets 5000).1 then
        ([Ev.load i, Ev.join i, Ev.probe i, Ev.watch i],
          Except.ok ⟨room, s.name, socketIds sockets⟩)
      else
        let next := connectGo rest (i + 1)
        (Ev.load i :: Ev.join i :: Ev.probe i :: Ev.leaveRoom i room ::
          next.1, next.2)

/-- `connect(startIndex)`: the loop starts at `startIndex` and walks to the
end of the registry, never wrapping. -/
def connect (strats : List Strategy) (startIndex : Nat) :
    List Ev × Except String ConnSuccess :=
  connectGo (strats.drop startIndex) startIndex

/-- A strategy fails the scan when its load rejects, its join throws, or its
health probe resolves false. -/
def stratFails (s : Strategy) : Bool :=
  match s.outcome with
  | StratOutcome.loadFail => true
  | StratOutcome.joinFail => true
  | StratOutcome.joined _ sockets => !(waitForRelayOpen sockets 5000).1

/-- The room id of a joined strategy (0 for the failure outcomes, which hold
no room). -/
def stratRoom (s : Strategy) : Nat :=
  match s.outcome with
  | StratOutcome.joined room _ => room
  | _ => 0

/-- The adopted socket ids of a joined strategy. -/
def stratSockets (s : Strategy) : List Nat :=
  match s.outcome with
  | StratOutcome.joined _ sockets => socketIds sockets
  | _ => []

/-- The trace the loop body leaves behind for one failing candidate at
registry index `i`. -/
def failTrace (s : Strategy) (i : Nat) : List Ev :=
  match s.outcome with
  | StratOutcome.loadFail => [Ev.load i]
  | StratOutcome.joinFail => [Ev.load i, Ev.join i]
  | StratOutcome.joined room _ =>
    [Ev.load i, Ev.join i, Ev.probe i, Ev.leaveRoom i room]

/-- The concatenated traces of a block of failing candidates starting at
registry index `i`. -/
def failsTrace : List Strategy → Nat → List Ev
  | [], _ => []
  | s :: rest, i => failTrace s i ++ failsTrace rest (i + 1)

/-- A block of failing strategies at the front of the scan is walked through
completely: each is tried, rejected and its cleanup emitted, and the scan
continues behind the block with the index advanced. -/
theorem connectGo_skips_failing (pre : List Strategy) :
    ∀ (l : List Strategy) (i : Nat), (∀ x ∈ pre, stratFails x = true) →
      connectGo (pre ++ l) i =
        (failsTrace pre i ++ (connectGo l (i + pre.length)).1,
          (connectGo l (i + pre.length)).2) := by
  induction pre with
  | nil => intro l i _; simp [failsTrace]
  | cons s rest ih =>
    intro l i h
    have hs : stratFails s = true := h s (List.mem_cons_self s rest)
    have hrest : ∀ x ∈ rest, stratFails x = true :=
      fun x hx => h x (List.mem_cons_of_mem s hx)
    have hrec := ih l (i + 1) hrest
    cases hout : s.outcome with
    | loadFail =>
      simp only [List.cons_append, connectGo, hout, failsTrace,
        failTrace, List.append_assoc, List.cons_append, List.nil_append,
        List.length_cons]
      rw [show rest.append l = rest ++ l from rfl, hrec,
        show i + 1 + rest.length = i + (rest.length + 1) from by omega]
    | joinFail =>
      simp only [List.cons_append, connectGo, hout, failsTrace,
        failTrace, List.append_assoc, List.cons_append, List.nil_append,
        List.length_cons]
      rw [show rest.append l = rest ++ l from rfl, hrec,
        show i + 1 + rest.length = i + (rest.length + 1) from by omega]
    | joined room sockets =>
      have hwait : (waitForRelayOpen sockets 5000).1 = false := by
        rw [stratFails, hout] at hs
        simpa using hs
      simp only [List.cons_append, connectGo, hout, hwait,
        Bool.false_eq_true, if_false, failsTrace, failTrace,
        List.append_assoc, List.cons_append, List.nil_append,
        List.length_cons]
      rw [show rest.append l = rest ++ l from rfl, hrec,
        show i + 1 + rest.length = i + (rest.length + 1) from by omega]

/-- A healthy candidate at the head of the scan is adopted on the spot:
loaded, joined, probed, watched, and returned with its room, name and
sockets; nothing behind it is touched. -/
theorem connectGo_adopts_healthy (s : Strategy) (l : List Strategy) (i : Nat)
    (h : stratFails s = false) :
    connectGo (s :: l) i =
      ([Ev.load i, Ev.join i, Ev.probe i, Ev.watch i],
        Except.ok ⟨stratRoom s, s.name, stratSockets s⟩) := by
  cases hout : s.outcome with
  | loadFail => rw [stratFails, hout] at h; simp at h
  | joinFail => rw [stratFails, hout] at h; simp at h
  | joined room sockets =>
    have hwait : (waitForRelayOpen sockets 5000).1 = true := by
      rw [stratFails, hout] at h
      simpa using h
    simp [connectGo, hout, hwait, stratRoom, stratSockets]

/-- The scan's result is an error exactly when every remaining strategy
fails, and the only error it ever produces is the distinguished exhaustion
message of source line 100. -/
theorem connectGo_result (l : List Strategy) : ∀ i : Nat,
    ((∀ s ∈ l, stratFails s = true) ∧
      (connectGo l i).2 = Except.error "All connection strategies failed") ∨
    ((∃ s ∈ l, stratFails s = false) ∧
      ∃ c, (connectGo l i).2 = Except.ok c) := by
  induction l with
  | nil => intro i; left; exact ⟨by simp, rfl⟩
  | cons s rest ih =>
    intro i
    cases hfail : stratFails s with
    | false =>
      right
      refine ⟨⟨s, List.mem_cons_self s rest, hfail⟩, ?_⟩
      rw [connectGo_adopts_healthy s rest i hfail]
      exact ⟨⟨stratRoom s, s.name, stratSockets s⟩, rfl⟩
    | true =>
      have hgo : connectGo (s :: rest) i =
          (failTrace s i ++ (connectGo rest (i + 1)).1,
            (connectGo rest (i + 1)).2) := by
        have := connectGo_skips_failing [s] rest i (by simpa using hfail)
        simpa [failsTrace] using this
      rcases ih (i + 1) with ⟨hall, herr⟩ | ⟨⟨x, hx, hxf⟩, c, hok⟩
      · left
        refine ⟨?_, by rw [hgo]; exact herr⟩
        intro x hx
        rcases List.mem_cons.1 hx with rfl | hx
        · exact hfail
        · exact hall x hx
      · right
        exact ⟨⟨x, List.mem_cons_of_mem s hx, hxf⟩, c, by rw [hgo]; exact hok⟩

/-! ## Session facade (`joinRoomWithFallback`, source lines 70-141) -/

/-- The mutable closure state of one `joinRoomWithFallback` call, together
with the observables needed to audit it.  `watched` is the set of socket ids
currently carrying the `handleDisconnect` close/error listeners; `inFlight`
counts `handleDisconnect` runs that have passed the `active` guard and whose
`connect(0)` has not yet settled; `dispatched` logs every reconnect-handler
invocation `(handler, room, strategy)`; `roomsLeft` logs the rooms whose
`leave()` the facade has called; `publicRoom`/`publicStrategy` are the
fields of the returned `FallbackRoom` object (source lines 124-125), fixed
at construction. -/
structure SessionState where
  active : Bool
  handlers : List Nat
  currentRoom : Nat
  currentStrategy : String
  currentSockets : List Nat
  watched : List Nat
  inFlight : Nat
  dispatched : List (Nat × Nat × String)
  roomsLeft : List Nat
  publicRoom : Nat
  publicStrategy : String
deriving DecidableEq, Repr

/-- `watchSockets` (source lines 103-109): `addEventListener` attaches the
handler to each socket not already carrying it (the DOM deduplicates an
identical listener), in order. -/
def attachAll (watched : List Nat) (sockets : List Nat) : List Nat :=
  sockets.foldl (fun w sid => if sid ∈ w then w else w ++ [sid]) watched

/-- The facade state right after the initial `connect()` succeeded:
`active = true`, no handlers, the adopted room/module current, its sockets
watched, nothing in flight, nothing dispatched or left. -/
def initState (c : ConnSuccess) : SessionState :=
  { active := true
    handlers := []
    currentRoom := c.room
    currentStrategy := c.strategy
    currentSockets := c.sockets
    watched := attachAll [] c.sockets
    inFlight := 0
    dispatched := []
    roomsLeft := []
    publicRoom := c.room
    publicStrategy := c.strategy }

/-- `joinRoomWithFallback` (source lines 70-141): performs the initial
`connect()` at startIndex 0 (line 121); when it succeeds the facade is
returned, when it throws the construction itself rejects with the same
error. -/
def joinRoomWithFallback (strats : List Strategy) :
    Except String SessionState :=
  match (connect strats 0).2 with
  | Except.ok c => Except.ok (initState c)
  | Except.error e => Except.error e

/-- One event-loop step against the facade: a `close`/`error` event firing
on socket `sid`, an in-flight reconnection's `connect(0)` settling against
registry `env`, an `onReconnect(h)` registration, or a `leave()` call. -/
inductive Step where
  | socketEvent : Nat → Step
  | reconnectDone : List Strategy → Step
  | register : Nat → Step
  | leaveCall : Step

/-- The facade's reaction to one step, read off the source:

* `socketEvent sid` runs `handleDisconnect` when the handler is attached to
  `sid`; the handler returns at once unless `active` (line 112), otherwise
  its `connect(0)` goes in flight (line 114).
* `reconnectDone env` settles one in-flight `connect(0)` (requires one in
  flight).  On success lines 90-92 adopt the new room/module and watch its
  sockets — the source never detaches the old listeners here — and line 115
  invokes every currently registered handler, in order, with the new room
  and strategy name.  On exhaustion line 117 only logs.
* `register h` appends to `reconnectHandlers` (line 127) unconditionally.
* `leaveCall` (lines 129-139) clears `active` and the handler list,
  detaches the listeners from the current module's sockets only, and calls
  `leave()` on the current room. -/
def applyStep (st : SessionState) : Step → SessionState
  | Step.socketEvent sid =>
    if sid ∈ st.watched ∧ st.active = true then
      { st with inFlight := st.inFlight + 1 }
    else st
  | Step.reconnectDone env =>
    if st.inFlight = 0 then st
    else
      match (connect env 0).2 with
      | Except.ok c =>
        { st with
          inFlight := st.inFlight - 1
          currentRoom := c.room
          currentStrategy := c.strategy
          currentSockets := c.sockets
          watched := attachAll st.watched c.sockets
          dispatched := st.dispatched ++
            st.handlers.map (fun h => (h, c.room, c.strategy)) }
      | Except.error _ => { st with inFlight := st.inFlight - 1 }
  | Step.register h => { st with handlers := st.handlers ++ [h] }
  | Step.leaveCall =>
    { st with
      active := false
      handlers := []
      watched := st.watched.filter (fun sid =>
        decide (sid ∉ st.currentSockets))
      roomsLeft := st.roomsLeft ++ [st.currentRoom] }

/-- A whole schedule of steps, applied in order. -/
def applyTrace (st : SessionState) (steps : List Step) : SessionState :=
  steps.foldl applyStep st

/-! ## Supporting lemmas -/

/-- A probe over a single socket that never opens resolves false exactly at
the timeout. -/
theorem waitForRelayOpen_never (sid t : Nat) :
    waitForRelayOpen (some [⟨sid, none⟩]) t = (false, t) := by
  have h := waitFrom_times_out [⟨sid, none⟩] t 0
    (fun u _ _ => by simp [anyOpenBy])
  simpa [waitForRelayOpen, socketList, anyOpenBy] using h

/-- A list with an earliest open instant is nonempty. -/
theorem firstOpenTime_ne_nil (l : List WSocket) (t : Nat)
    (h : firstOpenTime l = some t) : l.isEmpty = false := by
  cases l with
  | nil => simp [firstOpenTime] at h
  | cons ws rest => rfl

/-- The trace of a failing block only mentions registry indices below the
end of the block. -/
theorem failsTrace_indices (pre : List Strategy) :
    ∀ i j : Nat, i + pre.length ≤ j →
      Ev.load j ∉ failsTrace pre i ∧ Ev.join j ∉ failsTrace pre i := by
  induction pre with
  | nil => intro i j _; simp [failsTrace]
  | cons s rest ih =>
    intro i j hij
    simp only [List.length_cons] at hij
    have hrec := ih (i + 1) j (by omega)
    have hne : i ≠ j := by omega
    constructor
    · intro hmem
      rw [failsTrace, List.mem_append] at hmem
      rcases hmem with hmem | hmem
      · cases hout : s.outcome <;> simp [failTrace, hout] at hmem <;> omega
      · exact hrec.1 hmem
    · intro hmem
      rw [failsTrace, List.mem_append] at hmem
      rcases hmem with hmem | hmem
      · cases hout : s.outcome <;> simp [failTrace, hout] at hmem <;> omega
      · exact hrec.2 hmem

/-! ## The claims -/

/-- C1: `connect(startIndex)` attempts strategies strictly in registry order
from `startIndex` without wrapping; when strategies `startIndex..k-1` each
fail and strategy `k` succeeds, it returns strategy `k`'s room and name, and
strategies `k+1..N-1` are never loaded or joined. -/
theorem connect_scans_in_registry_order (front pre rest : List Strategy)
    (s : Strategy)
    (hpre : ∀ x ∈ pre, stratFails x = true) (hs : stratFails s = false) :
    connect (front ++ pre ++ s :: rest) front.length =
      (failsTrace pre front.length ++
        [Ev.load (front.length + pre.length),
          Ev.join (front.length + pre.length),
          Ev.probe (front.length + pre.length),
          Ev.watch (front.length + pre.length)],
        Except.ok ⟨stratRoom s, s.name, stratSockets s⟩) ∧
    ∀ j, front.length + pre.length < j →
      Ev.load j ∉ (connect (front ++ pre ++ s :: rest) front.length).1 ∧
      Ev.join j ∉ (connect (front ++ pre ++ s :: rest) front.length).1 := by
  have hdrop : (front ++ pre ++ s :: rest).drop front.length =
      pre ++ s :: rest := by
    rw [List.append_assoc, List.drop_left]
  have heq : connect (front ++ pre ++ s :: rest) front.length =
      (failsTrace pre front.length ++
        [Ev.load (front.length + pre.length),
          Ev.join (front.length + pre.length),
          Ev.probe (front.length + pre.length),
          Ev.watch (front.length + pre.length)],
        Except.ok ⟨stratRoom s, s.name, stratSockets s⟩) := by
    rw [connect, hdrop,
      connectGo_skips_failing pre (s :: rest) front.length hpre,
      connectGo_adopts_healthy s rest (front.length + pre.length) hs]
  refine ⟨heq, ?_⟩
  intro j hj
  rw [heq]
  have hload := (failsTrace_indices pre front.length j (by omega)).1
  have hjoin := (failsTrace_indices pre front.length j (by omega)).2
  have hne : front.length + pre.length ≠ j := by omega
  constructor
  · simp only [List.mem_append, List.mem_cons, List.mem_singleton]
    rintro (h | h | h | h | h) <;>
      first
        | exact hload h
        | simp_all
  · simp only [List.mem_append, List.mem_cons, List.mem_singleton]
    rintro (h | h | h | h | h) <;>
      first
        | exact hjoin h
        | simp_all

/-- C2: `connect(startIndex)` fails exactly when every strategy from
`startIndex` to the end fails, rejecting with the distinguished exhaustion
error, and `joinRoomWithFallback`'s initial `connect()` propagates that
failure so construction itself rejects. -/
theorem connect_exhaustion (strats : List Strategy) (startIndex : Nat) :
    ((∃ e, (connect strats startIndex).2 = Except.error e) ↔
      ∀ s ∈ strats.drop startIndex, stratFails s = true) ∧
    ((∀ s ∈ strats.drop startIndex, stratFails s = true) →
      (connect strats startIndex).2 =
        Except.error "All connection strategies failed") ∧
    ((∀ s ∈ strats, stratFails s = true) →
      joinRoomWithFallback strats =
        Except.error "All connection strategies failed") := by
  refine ⟨⟨?_, ?_⟩, ?_, ?_⟩
  · rintro ⟨e, he⟩ s hs
    rcases connectGo_result (strats.drop startIndex) startIndex with
      ⟨hall, _⟩ | ⟨_, c, hok⟩
    · exact hall s hs
    · rw [connect, hok] at he
      cases he
  · intro hall
    rcases connectGo_result (strats.drop startIndex) startIndex with
      ⟨_, herr⟩ | ⟨⟨x, hx, hxf⟩, _⟩
    · exact ⟨_, herr⟩
    · rw [hall x hx] at hxf
      cases hxf
  · intro hall
    rcases connectGo_result (strats.drop startIndex) startIndex with
      ⟨_, herr⟩ | ⟨⟨x, hx, hxf⟩, _⟩
    · exact herr
    · rw [hall x hx] at hxf
      cases hxf
  · intro hall
    have herr : (connect strats 0).2 =
        Except.error "All connection strategies failed" := by
      rcases connectGo_result strats 0 with ⟨_, herr⟩ | ⟨⟨x, hx, hxf⟩, _⟩
      · rw [connect, List.drop_zero]
        exact herr
      · rw [hall x hx] at hxf
        cases hxf
    rw [joinRoomWithFallback, herr]

/-- C3: the health probe resolves true immediately on an absent or empty
socket map; resolves true at the earliest open instant `t` when `t` is
strictly before the timeout; and when the timer fires first it resolves to
whether any socket is already OPEN at that very instant, so a socket opening
exactly at the timeout still counts as healthy. -/
theorem waitForRelayOpen_timing (sockets : Option (List WSocket))
    (timeout t : Nat) :
    ((socketList sockets).isEmpty = true →
      waitForRelayOpen sockets timeout = (true, 0)) ∧
    (firstOpenTime (socketList sockets) = some t → t < timeout →
      waitForRelayOpen sockets timeout = (true, t)) ∧
    ((socketList sockets).isEmpty = false →
      (∀ u, firstOpenTime (socketList sockets) = some u → timeout ≤ u) →
      waitForRelayOpen sockets timeout =
        (anyOpenBy (socketList sockets) timeout, timeout)) ∧
    (firstOpenTime (socketList sockets) = some timeout →
      waitForRelayOpen sockets timeout = (true, timeout)) := by
  refine ⟨?_, ?_, ?_, ?_⟩
  · intro h
    rw [waitForRelayOpen]
    simp [h]
  · intro hmin hlt
    rw [waitForRelayOpen]
    simp only [firstOpenTime_ne_nil _ _ hmin, Bool.false_eq_true, if_false]
    exact waitFrom_reaches (socketList sockets) t hmin timeout 0
      (by omega) (by omega)
  · intro hne hlate
    rw [waitForRelayOpen]
    simp only [hne, Bool.false_eq_true, if_false]
    have hclosed : ∀ u, 0 ≤ u → u < 0 + timeout →
        anyOpenBy (socketList sockets) u = false := by
      intro u _ hu
      rw [Bool.eq_false_iff]
      intro hopen
      obtain ⟨m, hm, hmu⟩ :=
        (anyOpenBy_iff_firstOpenTime (socketList sockets) u).1 hopen
      have := hlate m hm
      omega
    have := waitFrom_times_out (socketList sockets) timeout 0 hclosed
    simpa using this
  · intro hmin
    have hopen : anyOpenBy (socketList sockets) timeout = true :=
      (anyOpenBy_iff_firstOpenTime (socketList sockets) timeout).2
        ⟨timeout, hmin, le_refl timeout⟩
    rw [waitForRelayOpen]
    simp only [firstOpenTime_ne_nil _ _ hmin, Bool.false_eq_true, if_false]
    have hclosed : ∀ u, 0 ≤ u → u < 0 + timeout →
        anyOpenBy (socketList sockets) u = false := by
      intro u _ hu
      rw [Bool.eq_false_iff]
      intro h
      obtain ⟨m, hm, hmu⟩ :=
        (anyOpenBy_iff_firstOpenTime (socketList sockets) u).1 h
      rw [hmin] at hm
      injection hm with hm
      omega
    have := waitFrom_times_out (socketList sockets) timeout 0 hclosed
    rw [Nat.zero_add] at this
    rw [this, hopen]

/-- C5: a candidate whose join succeeds but whose health probe reports
unhealthy has `leave()` called on its room inside the loop body, before any
action of the strategies behind it: the whole remaining scan sits strictly
after the `leaveRoom` event in the trace. -/
theorem unhealthy_room_left_before_next (front pre rest : List Strategy)
    (name : String) (r : Nat) (ss : Option (List WSocket))
    (hpre : ∀ x ∈ pre, stratFails x = true)
    (hwait : (waitForRelayOpen ss 5000).1 = false) :
    connect (front ++ pre ++ (⟨name, StratOutcome.joined r ss⟩ : Strategy)
        :: rest) front.length =
      (failsTrace pre front.length ++
        Ev.load (front.length + pre.length) ::
        Ev.join (front.length + pre.length) ::
        Ev.probe (front.length + pre.length) ::
        Ev.leaveRoom (front.length + pre.length) r ::
        (connectGo rest (front.length + pre.length + 1)).1,
        (connectGo rest (front.length + pre.length + 1)).2) := by
  have hdrop : (front ++ pre ++
      (⟨name, StratOutcome.joined r ss⟩ : Strategy) :: rest).drop
        front.length =
      pre ++ (⟨name, StratOutcome.joined r ss⟩ : Strategy) :: rest := by
    rw [List.append_assoc, List.drop_left]
  rw [connect, hdrop,
    connectGo_skips_failing pre _ front.length hpre]
  simp [connectGo, hwait]

/-- C4: a close/error event on a watched socket of an active session starts
a reconnection whose scan begins at registry index 0 — so a healthy first
strategy is adopted no matter which strategy was current — and on success
every previously registered handler is invoked exactly once, in registration
order, with the new room and the new strategy name. -/
theorem reconnect_restarts_at_index_zero (st : SessionState) (sid : Nat)
    (s0 : Strategy) (rest : List Strategy)
    (hactive : st.active = true) (hw : sid ∈ st.watched)
    (h0 : stratFails s0 = false) :
    (applyTrace st [Step.socketEvent sid,
        Step.reconnectDone (s0 :: rest)]).currentStrategy = s0.name ∧
    (applyTrace st [Step.socketEvent sid,
        Step.reconnectDone (s0 :: rest)]).currentRoom = stratRoom s0 ∧
    (applyTrace st [Step.socketEvent sid,
        Step.reconnectDone (s0 :: rest)]).dispatched =
      st.dispatched ++
        st.handlers.map (fun h => (h, stratRoom s0, s0.name)) := by
  have hc : (connect (s0 :: rest) 0).2 =
      Except.ok ⟨stratRoom s0, s0.name, stratSockets s0⟩ := by
    rw [connect, List.drop_zero, connectGo_adopts_healthy s0 rest 0 h0]
  simp [applyTrace, applyStep, hw, hactive, hc]

/-- C7: once `leave()` has set `active = false`, a close/error event on any
formerly watched socket leaves the state untouched (the disconnect handler
returns before invoking `connect`), and no step whatsoever makes the session
active again, so this holds for every subsequent event. -/
theorem no_reconnect_after_teardown (st : SessionState)
    (h : st.active = false) :
    (∀ sid, applyStep st (Step.socketEvent sid) = st) ∧
    (∀ step, (applyStep st step).active = false) := by
  constructor
  · intro sid
    simp [applyStep, h]
  · intro step
    cases step with
    | socketEvent sid => simp [applyStep, h]
    | reconnectDone env =>
      rw [applyStep]
      by_cases h0 : st.inFlight = 0
      · simp [h0, h]
      · simp only [h0, if_false]
        cases hc : (connect env 0).2 <;> simp [h]
    | register hd => simp [applyStep, h]
    | leaveCall => simp [applyStep]

/-- C8: a successful reconnection swaps the facade's internal current room,
strategy and sockets, while the `room`/`strategy` fields of the returned
`FallbackRoom` object keep referencing the initially connected session; and
`leave()` calls `leave()` on the current — most recently connected — room,
not on the cached public one. -/
theorem reconnect_keeps_public_snapshot (st : SessionState) (s0 : Strategy)
    (rest : List Strategy)
    (hin : st.inFlight ≠ 0) (h0 : stratFails s0 = false) :
    (applyStep st (Step.reconnectDone (s0 :: rest))).currentRoom =
      stratRoom s0 ∧
    (applyStep st (Step.reconnectDone (s0 :: rest))).currentStrategy =
      s0.name ∧
    (applyStep st (Step.reconnectDone (s0 :: rest))).currentSockets =
      stratSockets s0 ∧
    (applyStep st (Step.reconnectDone (s0 :: rest))).publicRoom =
      st.publicRoom ∧
    (applyStep st (Step.reconnectDone (s0 :: rest))).publicStrategy =
      st.publicStrategy ∧
    (applyStep (applyStep st (Step.reconnectDone (s0 :: rest)))
        Step.leaveCall).roomsLeft =
      (applyStep st (Step.reconnectDone (s0 :: rest))).roomsLeft ++
        [stratRoom s0] := by
  have hc : (connect (s0 :: rest) 0).2 =
      Except.ok ⟨stratRoom s0, s0.name, stratSockets s0⟩ := by
    rw [connect, List.drop_zero, connectGo_adopts_healthy s0 rest 0 h0]
  simp [applyStep, hc, hin]

/-- One step of a torn-down, quiescent session (inactive, nothing in
flight) dispatches nothing and stays torn down and quiescent. -/
theorem quiescent_step (st : SessionState) (step : Step)
    (ha : st.active = false) (hf : st.inFlight = 0) :
    (applyStep st step).dispatched = st.dispatched ∧
    (applyStep st step).active = false ∧
    (applyStep st step).inFlight = 0 := by
  cases step with
  | socketEvent sid => simp [applyStep, ha, hf]
  | reconnectDone env => simp [applyStep, ha, hf]
  | register hd => simp [applyStep, ha, hf]
  | leaveCall => simp [applyStep, ha, hf]

/-- C10 (amended): `onReconnect` after `leave()` still appends its handler;
`leave()` discards all previously registered handlers; and from any
torn-down state with no reconnection in flight, no schedule of further
events ever dispatches a handler. -/
theorem quiescent_teardown_no_dispatch (st : SessionState)
    (steps : List Step) (hd : Nat)
    (ha : st.active = false) (hf : st.inFlight = 0) :
    (applyStep st (Step.register hd)).handlers = st.handlers ++ [hd] ∧
    (applyStep st Step.leaveCall).handlers = [] ∧
    (applyTrace st steps).dispatched = st.dispatched := by
  refine ⟨by simp [applyStep], by simp [applyStep], ?_⟩
  induction steps generalizing st with
  | nil => rfl
  | cons step rest ih =>
    obtain ⟨hdisp, ha2, hf2⟩ := quiescent_step st step ha hf
    calc (applyTrace st (step :: rest)).dispatched
        = (applyTrace (applyStep st step) rest).dispatched := rfl
      _ = (applyStep st step).dispatched := ih (applyStep st step) ha2 hf2
      _ = st.dispatched := hdisp

/-! ## Concrete registries and states used as evidence -/

/-- A strategy that joins room 10 and exposes one relay socket (id 100)
that is already OPEN. -/
def nostrStrat : Strategy :=
  ⟨"nostr", StratOutcome.joined 10 (some [⟨100, some 0⟩])⟩

/-- A strategy that joins room 20 and exposes one relay socket (id 200)
that is already OPEN. -/
def torrentStrat : Strategy :=
  ⟨"torrent", StratOutcome.joined 20 (some [⟨200, some 0⟩])⟩

/-- A strategy whose `load()` rejects. -/
def loadFailStrat : Strategy := ⟨"nostr", StratOutcome.loadFail⟩

/-- A strategy whose `joinRoom` throws. -/
def joinFailStrat : Strategy := ⟨"mqtt", StratOutcome.joinFail⟩

/-- A one-strategy registry adopting room 10 over socket 100. -/
def regA : List Strategy := [nostrStrat]

/-- A one-strategy registry adopting room 20 over socket 200. -/
def regB : List Strategy := [torrentStrat]

/-- A registry whose single strategy exposes two OPEN sockets. -/
def regTwin : List Strategy :=
  [⟨"nostr", StratOutcome.joined 11 (some [⟨100, some 0⟩, ⟨101, some 0⟩])⟩]

/-- A registry in which every strategy fails. -/
def failReg : List Strategy := [loadFailStrat, joinFailStrat]

/-- An active session currently on the third registry strategy ("mqtt",
room 30, socket 300), two handlers registered, whose public snapshot still
shows the initially connected session (room 10, "nostr"). -/
def mqttSt : SessionState :=
  { active := true
    handlers := [3, 4]
    currentRoom := 30
    currentStrategy := "mqtt"
    currentSockets := [300]
    watched := [300]
    inFlight := 0
    dispatched := []
    roomsLeft := []
    publicRoom := 10
    publicStrategy := "nostr" }

/-- `mqttSt` with one reconnection in flight. -/
def inflightSt : SessionState := { mqttSt with inFlight := 1 }

/-- The session of `regA` right after `leave()` was called with nothing in
flight. -/
def leftSt : SessionState :=
  applyTrace (initState ⟨10, "nostr", [100]⟩) [Step.leaveCall]

/-- C6: the attach/detach pairing the spec requires does not hold.  A
session built on `regA` (socket 100) that reconnects onto `regB` (socket
200) ends with `handleDisconnect` attached to both 100 and 200 — the old
strategy's listeners are never detached when it is discarded — and
`leave()` then detaches only the current module's socket 200, leaving the
stale listener on 100 forever. -/
theorem stale_listeners_never_detached :
    joinRoomWithFallback regA = Except.ok (initState ⟨10, "nostr", [100]⟩) ∧
    (applyTrace (initState ⟨10, "nostr", [100]⟩)
      [Step.socketEvent 100, Step.reconnectDone regB]).watched =
        [100, 200] ∧
    (applyTrace (initState ⟨10, "nostr", [100]⟩)
      [Step.socketEvent 100, Step.reconnectDone regB,
        Step.leaveCall]).watched = [100] :=
  ⟨rfl, by decide, by decide⟩

/-- C9: reconnection attempts are not deduplicated.  On a session built on
`regTwin`, close events firing on sockets 100 and 101 before either
reconnection settles leave two `connect(0)` scans in flight: the handler's
only guard is the `active` flag. -/
theorem overlapping_events_not_deduplicated :
    joinRoomWithFallback regTwin =
      Except.ok (initState ⟨11, "nostr", [100, 101]⟩) ∧
    (applyTrace (initState ⟨11, "nostr", [100, 101]⟩)
      [Step.socketEvent 100, Step.socketEvent 101]).inFlight = 2 :=
  ⟨rfl, by decide⟩

/-- C10 (counterexample): a reconnection in flight when `leave()` runs is
not cancelled; if `onReconnect(7)` is then called and the in-flight
`connect(0)` succeeds, handler 7 — registered after teardown — is invoked
even though the session is no longer active. -/
theorem handler_registered_after_leave_runs :
    (applyTrace (initState ⟨10, "nostr", [100]⟩)
      [Step.socketEvent 100, Step.leaveCall]).active = false ∧
    (applyTrace (initState ⟨10, "nostr", [100]⟩)
      [Step.socketEvent 100, Step.leaveCall, Step.register 7,
        Step.reconnectDone regB]).dispatched = [(7, 20, "torrent")] :=
  ⟨by decide, by decide⟩

/-! ## Witnesses -/

/-- Witness for C1: in the registry [load-fails, healthy "torrent",
join-fails], `connect(0)` returns strategy 1's room and name and never
loads strategy 2. -/
theorem connect_scans_in_registry_order_witness :
    stratFails loadFailStrat = true ∧ stratFails torrentStrat = false ∧
    (connect [loadFailStrat, torrentStrat, joinFailStrat] 0).2 =
      Except.ok ⟨20, "torrent", [200]⟩ ∧
    Ev.load 2 ∉ (connect [loadFailStrat, torrentStrat, joinFailStrat] 0).1 := by
  refine ⟨by decide, by decide, ?_, ?_⟩
  · exact congrArg Prod.snd (connect_scans_in_registry_order []
      [loadFailStrat] [joinFailStrat] torrentStrat (by decide) (by decide)).1
  · exact ((connect_scans_in_registry_order [] [loadFailStrat]
      [joinFailStrat] torrentStrat (by decide) (by decide)).2 2 (by decide)).1

/-- Witness for C2: on a registry whose strategies all fail, `connect(0)`
and the construction both reject with the exhaustion error. -/
theorem connect_exhaustion_witness :
    (connect failReg 0).2 =
      Except.error "All connection strategies failed" ∧
    joinRoomWithFallback failReg =
      Except.error "All connection strategies failed" :=
  ⟨(connect_exhaustion failReg 0).2.1 (by decide),
    (connect_exhaustion failReg 0).2.2 (by decide)⟩

/-- Witness for C3: empty map resolves `(true, 0)`; earliest open at 2 with
timeout 5 resolves `(true, 2)`; a never-opening socket resolves
`(false, timeout)` at the timeout; a socket opening exactly at the timeout
still resolves healthy. -/
theorem waitForRelayOpen_timing_witness :
    waitForRelayOpen (some []) 5 = (true, 0) ∧
    waitForRelayOpen (some [⟨1, some 2⟩, ⟨2, none⟩]) 5 = (true, 2) ∧
    waitForRelayOpen (some [⟨3, none⟩]) 4 = (false, 4) ∧
    waitForRelayOpen (some [⟨4, some 6⟩]) 6 = (true, 6) := by
  refine ⟨?_, ?_, ?_, ?_⟩
  · exact (waitForRelayOpen_timing (some []) 5 0).1 (by decide)
  · exact (waitForRelayOpen_timing (some [⟨1, some 2⟩, ⟨2, none⟩]) 5 2).2.1
      (by decide) (by decide)
  · have h := (waitForRelayOpen_timing (some [⟨3, none⟩]) 4 0).2.2.1
      (by decide) (by intro u hu; simp [socketList, firstOpenTime] at hu)
    rw [h]
    decide
  · exact (waitForRelayOpen_timing (some [⟨4, some 6⟩]) 6 6).2.2.2 (by decide)

/-- Witness for C4: from a session currently on "mqtt", a close event on
socket 300 reconnects onto registry index 0 ("nostr", room 10) and invokes
handlers 3 and 4 once each, in order, with the new room and name. -/
theorem reconnect_restarts_at_index_zero_witness :
    mqttSt.active = true ∧ 300 ∈ mqttSt.watched ∧
    stratFails nostrStrat = false ∧
    (applyTrace mqttSt [Step.socketEvent 300,
      Step.reconnectDone (nostrStrat :: [torrentStrat])]).currentStrategy =
        "nostr" ∧
    (applyTrace mqttSt [Step.socketEvent 300,
      Step.reconnectDone (nostrStrat :: [torrentStrat])]).dispatched =
        [(3, 10, "nostr"), (4, 10, "nostr")] := by
  refine ⟨rfl, by decide, by decide, ?_, ?_⟩
  · exact (reconnect_restarts_at_index_zero mqttSt 300 nostrStrat
      [torrentStrat] rfl (by decide) (by decide)).1
  · exact (reconnect_restarts_at_index_zero mqttSt 300 nostrStrat
      [torrentStrat] rfl (by decide) (by decide)).2.2

/-- Witness for C5: the scenario of the spec's §8 — A fails to load, B
joins but its socket never opens, C is healthy: B's room 42 has `leave`
invoked before strategy C is loaded. -/
theorem unhealthy_room_left_before_next_witness :
    (waitForRelayOpen (some [⟨9, none⟩]) 5000).1 = false ∧
    connect [loadFailStrat,
        ⟨"torrent", StratOutcome.joined 42 (some [⟨9, none⟩])⟩,
        nostrStrat] 0 =
      (failsTrace [loadFailStrat] 0 ++
        Ev.load 1 :: Ev.join 1 :: Ev.probe 1 :: Ev.leaveRoom 1 42 ::
          (connectGo [nostrStrat] 2).1,
        (connectGo [nostrStrat] 2).2) := by
  have hwait : (waitForRelayOpen (some [⟨9, none⟩]) 5000).1 = false := by
    simp [waitForRelayOpen_never]
  exact ⟨hwait, unhealthy_room_left_before_next [] [loadFailStrat]
    [nostrStrat] "torrent" 42 (some [⟨9, none⟩]) (by decide) hwait⟩

/-- Witness for C7: on the torn-down session, a close event on the formerly
watched socket 100 changes nothing, and registering a handler leaves the
session inactive. -/
theorem no_reconnect_after_teardown_witness :
    leftSt.active = false ∧
    applyStep leftSt (Step.socketEvent 100) = leftSt ∧
    (applyStep leftSt (Step.register 5)).active = false := by
  refine ⟨by decide, ?_, ?_⟩
  · exact (no_reconnect_after_teardown leftSt (by decide)).1 100
  · exact (no_reconnect_after_teardown leftSt (by decide)).2 (Step.register 5)

/-- Witness for C8: a reconnection onto "torrent" updates the current room
to 20 but the public snapshot still shows room 10 / "nostr", and a
subsequent `leave()` leaves room 20, not the public room 10. -/
theorem reconnect_keeps_public_snapshot_witness :
    inflightSt.inFlight ≠ 0 ∧ stratFails torrentStrat = false ∧
    (applyStep inflightSt
      (Step.reconnectDone (torrentStrat :: []))).currentRoom = 20 ∧
    (applyStep inflightSt
      (Step.reconnectDone (torrentStrat :: []))).publicRoom = 10 ∧
    (applyStep inflightSt
      (Step.reconnectDone (torrentStrat :: []))).publicStrategy = "nostr" ∧
    (applyStep (applyStep inflightSt
      (Step.reconnectDone (torrentStrat :: []))) Step.leaveCall).roomsLeft =
      (applyStep inflightSt
        (Step.reconnectDone (torrentStrat :: []))).roomsLeft ++ [20] := by
  have h := reconnect_keeps_public_snapshot inflightSt torrentStrat []
    (by decide) (by decide)
  exact ⟨by decide, by decide, h.1, h.2.2.2.1, h.2.2.2.2.1, h.2.2.2.2.2⟩

/-- Witness for the amended C10: on the torn-down quiescent session,
`onReconnect(9)` still appends its handler, yet no schedule of further
events — registration, socket events, settling reconnects — dispatches any
handler. -/
theorem quiescent_teardown_no_dispatch_witness :
    leftSt.active = false ∧ leftSt.inFlight = 0 ∧
    (applyStep leftSt (Step.register 9)).handlers = [9] ∧
    (applyTrace leftSt [Step.register 9, Step.socketEvent 100,
      Step.reconnectDone regB]).dispatched = [] := by
  have h := quiescent_teardown_no_dispatch leftSt
    [Step.register 9, Step.socketEvent 100, Step.reconnectDone regB] 9
    (by decide) (by decide)
  exact ⟨by decide, by decide, h.1, h.2.2⟩

end P2P
